import Mathlib

/-!
Shallow embedding of `@lykmapipo/logger` (src/lib/index.js).

Records are JavaScript plain objects: insertion-ordered, key-unique maps
from field names to values.  We model them as association lists kept
key-unique by construction (`setField` replaces in place or appends, the
semantics of a JS property write).  `mergeObjects` from the external
`@lykmapipo/common` package is lodash `merge({}, ...sources)` with a
compaction of each source that only drops null/undefined values; our value
type has no null, so merging source `b` into an accumulator object `a`
is `mergeTwo a b` (fields of `b` win on conflict, as the spec states:
"later message overwrites earlier", "error-derived fields win over prior
fields on conflict").  Clock reads (`Date.now()` / `new Date()`) are
modelled by a strictly increasing counter in the state, matching the spec
view of the creation identifier as "monotonically distinguishing".
The backend (winston) is out of scope per the spec; a write is recorded
as an event appended to `written`, and never alters the record.
-/

namespace Logger

/-- JS field values occurring in log records. -/
inductive Val where
  | str (s : String)
  | num (n : Int)
  | time (t : Nat)
  | boolV (b : Bool)
deriving DecidableEq, Repr

/-- A JS plain object: insertion-ordered association list, key-unique by
construction. -/
abbrev JSRec := List (String × Val)

/-- JS property write `r[k] = v`: replace the first binding of `k` in
place, otherwise append. -/
def setField (r : JSRec) (k : String) (v : Val) : JSRec :=
  match r with
  | [] => [(k, v)]
  | (k', v') :: rest =>
    if k' == k then (k, v) :: rest else (k', v') :: setField rest k v

/-- lodash `merge(dst, src)` on flat records: fields of `src` written into
`dst` in order (later source wins on conflict). -/
def mergeTwo (dst src : JSRec) : JSRec :=
  src.foldl (fun acc kv => setField acc kv.1 kv.2) dst

/-- JS property read `r[k]`: value of the first binding of `k`, if any. -/
def lookupField (r : JSRec) (k : String) : Option Val :=
  match r with
  | [] => none
  | (k', v) :: rest => if k' == k then some v else lookupField rest k

/-- Keys of a record, in order. -/
def keysOf (r : JSRec) : List String := r.map Prod.fst

/-- A record with no duplicate keys (every record built from JS objects). -/
def NodupKeys (r : JSRec) : Prop := (keysOf r).Nodup

/-- A JS error object as seen by the normalizer: `message` and `stack`
always exist on errors; `name`, `code`, `status` may be present. -/
structure JSError where
  message : String
  stack : String
  name : Option String
  code : Option Val
  status : Option Val
deriving DecidableEq, Repr

/-- One variadic argument to `normalizeLog` / an emitter.  `str`, `obj`
and `err` are the three recognized shapes (`isString`, `isPlainObject`,
`isError`); the remaining constructors are inputs matching none of the
three (numbers, null, arrays: `[].concat([...params])` spreads only the
copied params array itself, so an array argument stays a single element). -/
inductive JSInput where
  | str (s : String)
  | obj (o : JSRec)
  | err (e : JSError)
  | num (n : Int)
  | nullV
  | arr (xs : List Int)
deriving DecidableEq, Repr

/-- `lodash.isString(param)`. -/
def isStringParam : JSInput → Bool
  | .str _ => true
  | _ => false

/-- `lodash.isPlainObject(param)`. -/
def isPlainObjectParam : JSInput → Bool
  | .obj _ => true
  | _ => false

/-- `lodash.isError(param)`. -/
def isErrorParam : JSInput → Bool
  | .err _ => true
  | _ => false

/-- Environment configuration consulted by the library: `none` means the
variable is unset, so the coded default applies. -/
structure Env where
  logEnabled : Option Bool
  logIgnore : Option (List String)
deriving DecidableEq, Repr

/-- All environment variables unset. -/
def defaultEnv : Env := { logEnabled := none, logIgnore := none }

/-- `isLoggingEnabled`: `env.getBoolean(LOGGER_LOG_ENABLED, true)`. -/
def isLoggingEnabled (env : Env) : Bool := env.logEnabled.getD true

/-- The coded default ignored-field list. -/
def defaultIgnoredFields : List String :=
  ["password", "secret", "token", "client_secret"]

/-- `env.getStrings(LOGGER_LOG_IGNORE, ignoredFields)`. -/
def ignoredFields (env : Env) : List String :=
  env.logIgnore.getD defaultIgnoredFields

/-- Helper for optional projected fields of an error. -/
def optField (k : String) : Option Val → JSRec
  | some v => [(k, v)]
  | none => []

/-- Modelled from the spec: `mapErrorToObject(error, \x7b stack: true \x7d)`
of the external `@lykmapipo/common` package is not part of this repository;
the spec describes it as "a plain-object projection of the error
(including stack trace, and, if present, custom fields like
`code`/`status`/`name`)". -/
def mapErrorToObject (e : JSError) : JSRec :=
  [("message", Val.str e.message), ("stack", Val.str e.stack)]
    ++ optField "name" (e.name.map Val.str)
    ++ optField "code" e.code
    ++ optField "status" e.status

/-- One iteration of the `lodash.forEach` body in `normalizeLog`: the three
`if` tests are mutually exclusive on any single param, so they behave as a
case split; an unrecognized param matches none and leaves the accumulator
unchanged. -/
def normalizeStep (log : JSRec) : JSInput → JSRec
  | .str s => mergeTwo log [("message", Val.str s)]
  | .obj o => mergeTwo log o
  | .err e => mergeTwo (mergeTwo log [("level", Val.str "error")]) (mapErrorToObject e)
  | _ => log

/-- `lodash.omit(r, ...ks)`: drop all top-level fields named in `ks`. -/
def omitFields (r : JSRec) (ks : List String) : JSRec :=
  r.filter (fun kv => !(ks.contains kv.1))

/-- `normalizeLog(...params)`: start from level info and a creation
timestamp (`new Date()`, the `now` argument), fold the params in order,
then strip the configured ignored fields.  The final
`mergeObjects(omit(log, ...))` call has a single source, so with no null
values it is the omit itself. -/
def normalizeLog (env : Env) (now : Nat) (params : List JSInput) : JSRec :=
  let start : JSRec := [("level", Val.str "info"), ("timestamp", Val.time now)]
  omitFields (params.foldl normalizeStep start) (ignoredFields env)

/-- A backend logger handle: its creation identifier and the severities for
which it exposes a write method. -/
structure Handle where
  id : Nat
  levels : List String
deriving DecidableEq, Repr

/-- The severities configured on the winston backend (`LOG_LEVELS`). -/
def winstonLevels : List String :=
  ["error", "warn", "info", "http", "verbose", "debug", "silly", "event", "audit"]

/-- `createWinstonLogger()` as visible through the narrow interface: a
backend exposing a write method per configured severity. -/
def createWinstonLogger (id : Nat) : Handle :=
  { id := id, levels := winstonLevels }

/-- Module state: the shared `logger` variable, a strictly increasing
clock (models `Date.now()` / `new Date()`), the ghost list of identifiers
ever assigned to a created handle, and the records forwarded to the
backend (severity, record). -/
structure LoggerState where
  handle : Option Handle
  time : Nat
  issuedIds : List Nat
  written : List (String × JSRec)
deriving DecidableEq, Repr

/-- Fresh module state. -/
def initState : LoggerState :=
  { handle := none, time := 0, issuedIds := [], written := [] }

/-- `createLogger(customLogger)`: build the handle only when absent; the
new handle (custom or winston) gets `id = Date.now()`. -/
def createLogger (custom : Option Handle) (st : LoggerState) : Handle × LoggerState :=
  match st.handle with
  | some h => (h, st)
  | none =>
    let t := st.time
    let h : Handle := { custom.getD (createWinstonLogger t) with id := t }
    (h, { st with
            handle := some h
            time := st.time + 1
            issuedIds := st.issuedIds ++ [t] })

/-- `disposeLogger()`: clear the handle to null and return it. -/
def disposeLogger (st : LoggerState) : Option Handle × LoggerState :=
  (none, { st with handle := none })

/-- `canLog(level)`: `logger && isFunction(logger[level]) && isLoggingEnabled()`. -/
def canLog (env : Env) (st : LoggerState) (level : String) : Bool :=
  (match st.handle with
   | some h => h.levels.contains level
   | none => false) && isLoggingEnabled env

/-- Shared body of the eight emitters (`error` .. `audit`): acquire the
handle, normalize (`new Date()` is the clock value after the acquire),
merge the normalized record over the severity default, and forward to the
backend when gating passes.  Always return the merged record. -/
def emitWith (sev : String) (env : Env) (st : LoggerState) (params : List JSInput) :
    JSRec × LoggerState :=
  let st1 := (createLogger none st).2
  let now := st1.time
  let st2 := { st1 with time := st1.time + 1 }
  let normalized := mergeTwo [("level", Val.str sev)] (normalizeLog env now params)
  if canLog env st2 sev then
    (normalized, { st2 with written := st2.written ++ [(sev, normalized)] })
  else
    (normalized, st2)

/-- The clock value `normalizeLog` reads inside an emitter run from `st`. -/
def emitTime (st : LoggerState) : Nat := (createLogger none st).2.time

/-- `error(...params)`. -/
def error (env : Env) (st : LoggerState) (params : List JSInput) : JSRec × LoggerState :=
  emitWith "error" env st params

/-- `warn(...params)`. -/
def warn (env : Env) (st : LoggerState) (params : List JSInput) : JSRec × LoggerState :=
  emitWith "warn" env st params

/-- `info(...params)`. -/
def info (env : Env) (st : LoggerState) (params : List JSInput) : JSRec × LoggerState :=
  emitWith "info" env st params

/-- `verbose(...params)`. -/
def verbose (env : Env) (st : LoggerState) (params : List JSInput) : JSRec × LoggerState :=
  emitWith "verbose" env st params

/-- `debug(...params)`. -/
def debug (env : Env) (st : LoggerState) (params : List JSInput) : JSRec × LoggerState :=
  emitWith "debug" env st params

/-- `silly(...params)`. -/
def silly (env : Env) (st : LoggerState) (params : List JSInput) : JSRec × LoggerState :=
  emitWith "silly" env st params

/-- `event(...params)`. -/
def event (env : Env) (st : LoggerState) (params : List JSInput) : JSRec × LoggerState :=
  emitWith "event" env st params

/-- `audit(...params)`. -/
def audit (env : Env) (st : LoggerState) (params : List JSInput) : JSRec × LoggerState :=
  emitWith "audit" env st params

/-- JS `String.prototype.trim()`: remove leading and trailing
whitespace/newline characters. -/
def jsTrim (s : String) : String :=
  String.mk (((s.data.dropWhile Char.isWhitespace).reverse.dropWhile
    Char.isWhitespace).reverse)

/-- `stream.write(message)`: `info(\x7b message: message.trim() \x7d)`. -/
def streamWrite (env : Env) (st : LoggerState) (message : String) : JSRec × LoggerState :=
  info env st [JSInput.obj [("message", Val.str (jsTrim message))]]

/-- Follows the words of the spec for the stream adapter: trim only
TRAILING whitespace/newline from the line. -/
def specTrimTrailing (s : String) : String :=
  String.mk ((s.data.reverse.dropWhile Char.isWhitespace).reverse)

/-! ### Association-list lemmas -/

theorem keysOf_cons (k : String) (v : Val) (r : JSRec) :
    keysOf ((k, v) :: r) = k :: keysOf r := rfl

theorem lookup_setField_self (r : JSRec) (k : String) (v : Val) :
    lookupField (setField r k v) k = some v := by
  induction r with
  | nil => simp [setField, lookupField]
  | cons kv rest ih =>
    obtain ⟨k', v'⟩ := kv
    by_cases h : k' = k
    · simp [setField, h, lookupField]
    · simpa [setField, h, lookupField] using ih

theorem lookup_setField_ne (r : JSRec) (k k' : String) (v : Val) (h : k' ≠ k) :
    lookupField (setField r k v) k' = lookupField r k' := by
  induction r with
  | nil => simp [setField, lookupField, Ne.symm h]
  | cons kv rest ih =>
    obtain ⟨k₀, v₀⟩ := kv
    by_cases h₀ : k₀ = k
    · subst h₀
      simp [setField, lookupField, Ne.symm h, h]
    · by_cases h₁ : k₀ = k'
      · simp [setField, h₀, lookupField, h₁, h]
      · simpa [setField, h₀, lookupField, h₁] using ih

theorem keysOf_setField_mem (r : JSRec) (k : String) (v : Val)
    (h : k ∈ keysOf r) : keysOf (setField r k v) = keysOf r := by
  induction r with
  | nil => simp [keysOf] at h
  | cons kv rest ih =>
    obtain ⟨k', v'⟩ := kv
    by_cases hk : k' = k
    · simp [setField, hk, keysOf]
    · rw [keysOf_cons, List.mem_cons] at h
      rcases h with h | h
      · exact absurd h.symm hk
      · simp only [setField, hk, if_false, keysOf_cons, beq_iff_eq]
        rw [ih h]

theorem keysOf_setField_not_mem (r : JSRec) (k : String) (v : Val)
    (h : k ∉ keysOf r) : keysOf (setField r k v) = keysOf r ++ [k] := by
  induction r with
  | nil => simp [setField, keysOf]
  | cons kv rest ih =>
    obtain ⟨k', v'⟩ := kv
    rw [keysOf_cons, List.mem_cons] at h
    push_neg at h
    simp only [setField, Ne.symm h.1, if_false, keysOf_cons, beq_iff_eq]
    rw [ih h.2]
    rfl

theorem nodupKeys_setField (r : JSRec) (k : String) (v : Val)
    (h : NodupKeys r) : NodupKeys (setField r k v) := by
  unfold NodupKeys at h ⊢
  by_cases hm : k ∈ keysOf r
  · rw [keysOf_setField_mem r k v hm]
    exact h
  · rw [keysOf_setField_not_mem r k v hm]
    simp [List.nodup_append, h, hm]

theorem lookup_eq_none_of_not_mem_keys (r : JSRec) (k : String)
    (h : k ∉ keysOf r) : lookupField r k = none := by
  induction r with
  | nil => simp [lookupField]
  | cons kv rest ih =>
    obtain ⟨k', v'⟩ := kv
    rw [keysOf_cons, List.mem_cons] at h
    push_neg at h
    simpa [lookupField, Ne.symm h.1] using ih h.2

theorem isSome_setField (r : JSRec) (k k' : String) (v' : Val)
    (h : (lookupField r k).isSome) : (lookupField (setField r k' v') k).isSome := by
  by_cases hk : k = k'
  · subst hk
    simp [lookup_setField_self]
  · rwa [lookup_setField_ne _ _ _ _ hk]

theorem isSome_mergeTwo (dst src : JSRec) (k : String)
    (h : (lookupField dst k).isSome) : (lookupField (mergeTwo dst src) k).isSome := by
  induction src generalizing dst with
  | nil => simpa [mergeTwo] using h
  | cons kv tl ih =>
    obtain ⟨k', v'⟩ := kv
    show (lookupField (mergeTwo (setField dst k' v') tl) k).isSome
    exact ih _ (isSome_setField dst k k' v' h)

theorem lookup_mergeTwo_of_none (dst src : JSRec) (k : String)
    (h : lookupField src k = none) :
    lookupField (mergeTwo dst src) k = lookupField dst k := by
  induction src generalizing dst with
  | nil => simp [mergeTwo]
  | cons kv tl ih =>
    obtain ⟨k', v'⟩ := kv
    by_cases hk : k = k'
    · subst hk
      simp [lookupField] at h
    · have htl : lookupField tl k = none := by
        simpa [lookupField, Ne.symm hk] using h
      show lookupField (mergeTwo (setField dst k' v') tl) k = _
      rw [ih _ htl, lookup_setField_ne _ _ _ _ hk]

theorem lookup_mergeTwo_of_some (dst src : JSRec) (k : String) (v : Val)
    (hnd : NodupKeys src) (h : lookupField src k = some v) :
    lookupField (mergeTwo dst src) k = some v := by
  induction src generalizing dst with
  | nil => simp [lookupField] at h
  | cons kv tl ih =>
    obtain ⟨k', v'⟩ := kv
    have hnd' : k' ∉ keysOf tl ∧ NodupKeys tl := by
      simpa [NodupKeys, keysOf_cons, List.nodup_cons] using hnd
    by_cases hk : k = k'
    · subst hk
      have hv : v' = v := by simpa [lookupField] using h
      subst hv
      have htl : lookupField tl k = none :=
        lookup_eq_none_of_not_mem_keys _ _ hnd'.1
      show lookupField (mergeTwo (setField dst k v') tl) k = _
      rw [lookup_mergeTwo_of_none _ _ _ htl, lookup_setField_self]
    · have htl : lookupField tl k = some v := by
        simpa [lookupField, Ne.symm hk] using h
      exact ih _ hnd'.2 htl

theorem nodupKeys_mergeTwo (dst src : JSRec) (h : NodupKeys dst) :
    NodupKeys (mergeTwo dst src) := by
  induction src generalizing dst with
  | nil => simpa [mergeTwo] using h
  | cons kv tl ih =>
    obtain ⟨k', v'⟩ := kv
    exact ih _ (nodupKeys_setField dst k' v' h)

theorem lookup_omitFields (r : JSRec) (ks : List String) (k : String) :
    lookupField (omitFields r ks) k =
      if k ∈ ks then none else lookupField r k := by
  induction r with
  | nil => simp [omitFields, lookupField]
  | cons kv rest ih =>
    obtain ⟨k', v'⟩ := kv
    by_cases hk' : k' ∈ ks
    · by_cases hk : k = k'
      · subst hk
        simpa [omitFields, hk', lookupField, hk'] using ih
      · simpa [omitFields, hk', lookupField, Ne.symm hk] using ih
    · by_cases hk : k = k'
      · subst hk
        simp [omitFields, hk', lookupField]
      · simpa [omitFields, hk', lookupField, Ne.symm hk] using ih

theorem nodupKeys_omitFields (r : JSRec) (ks : List String)
    (h : NodupKeys r) : NodupKeys (omitFields r ks) := by
  unfold NodupKeys keysOf at h ⊢
  unfold omitFields
  exact (List.Sublist.map Prod.fst (List.filter_sublist r)).nodup h

/-! ### Invariants of the normalizer -/

theorem isSome_foldl_normalizeStep (ps : List JSInput) (log : JSRec) (k : String)
    (h : (lookupField log k).isSome) :
    (lookupField (ps.foldl normalizeStep log) k).isSome := by
  induction ps generalizing log with
  | nil => simpa using h
  | cons p tl ih =>
    rw [List.foldl_cons]
    apply ih
    cases p with
    | str s => exact isSome_mergeTwo _ _ _ h
    | obj o => exact isSome_mergeTwo _ _ _ h
    | err e => exact isSome_mergeTwo _ _ _ (isSome_mergeTwo _ _ _ h)
    | num n => exact h
    | nullV => exact h
    | arr xs => exact h

theorem nodupKeys_foldl_normalizeStep (ps : List JSInput) (log : JSRec)
    (h : NodupKeys log) : NodupKeys (ps.foldl normalizeStep log) := by
  induction ps generalizing log with
  | nil => simpa using h
  | cons p tl ih =>
    rw [List.foldl_cons]
    apply ih
    cases p with
    | str s => exact nodupKeys_mergeTwo _ _ h
    | obj o => exact nodupKeys_mergeTwo _ _ h
    | err e => exact nodupKeys_mergeTwo _ _ (nodupKeys_mergeTwo _ _ h)
    | num n => exact h
    | nullV => exact h
    | arr xs => exact h

theorem nodupKeys_normalizeLog (env : Env) (now : Nat) (ps : List JSInput) :
    NodupKeys (normalizeLog env now ps) := by
  unfold normalizeLog
  apply nodupKeys_omitFields
  apply nodupKeys_foldl_normalizeStep
  simp [NodupKeys, keysOf]

theorem isSome_level_normalizeLog (env : Env) (now : Nat) (ps : List JSInput)
    (h : "level" ∉ ignoredFields env) :
    (lookupField (normalizeLog env now ps) "level").isSome := by
  unfold normalizeLog
  rw [lookup_omitFields]
  simp only [h, if_false]
  apply isSome_foldl_normalizeStep
  simp [lookupField]

/-! ### Helper lemmas about the emitters and concrete normalizations -/

theorem emitWith_fst (sev : String) (env : Env) (st : LoggerState) (ps : List JSInput) :
    (emitWith sev env st ps).1 =
      mergeTwo [("level", Val.str sev)] (normalizeLog env (emitTime st) ps) := by
  simp only [emitWith, emitTime]
  split <;> rfl

theorem canLog_eq_false_of_disabled (env : Env) (st : LoggerState) (sev : String)
    (h : isLoggingEnabled env = false) : canLog env st sev = false := by
  simp [canLog, h]

theorem createLogger_written (c : Option Handle) (st : LoggerState) :
    (createLogger c st).2.written = st.written := by
  cases h : st.handle <;> simp [createLogger, h]

theorem emitWith_written_of_disabled (sev : String) (env : Env) (st : LoggerState)
    (ps : List JSInput) (h : isLoggingEnabled env = false) :
    (emitWith sev env st ps).2.written = st.written := by
  simp only [emitWith]
  rw [canLog_eq_false_of_disabled _ _ _ h]
  simp [createLogger_written]

theorem normalizeLog_singleStr_eq (now : Nat) (s : String) :
    normalizeLog defaultEnv now [JSInput.str s] =
      [("level", Val.str "info"), ("timestamp", Val.time now), ("message", Val.str s)] := by
  simp [normalizeLog, normalizeStep, mergeTwo, setField, omitFields, lookupField,
    ignoredFields, defaultEnv, defaultIgnoredFields]

theorem normalizeLog_msgObj_eq (now : Nat) (v : Val) :
    normalizeLog defaultEnv now [JSInput.obj [("message", v)]] =
      [("level", Val.str "info"), ("timestamp", Val.time now), ("message", v)] := by
  simp [normalizeLog, normalizeStep, mergeTwo, setField, omitFields, lookupField,
    ignoredFields, defaultEnv, defaultIgnoredFields]

theorem normalizeLog_singleErr_eq (now : Nat) (e : JSError) :
    normalizeLog defaultEnv now [JSInput.err e] =
      [("level", Val.str "error"), ("timestamp", Val.time now),
       ("message", Val.str e.message), ("stack", Val.str e.stack)]
        ++ optField "name" (e.name.map Val.str)
        ++ optField "code" e.code
        ++ optField "status" e.status := by
  obtain ⟨msg, stk, nm, cd, stt⟩ := e
  cases nm <;> cases cd <;> cases stt <;>
    simp [normalizeLog, normalizeStep, mapErrorToObject, optField, mergeTwo, setField,
      omitFields, lookupField, ignoredFields, defaultEnv, defaultIgnoredFields]

/-! ### Claims -/

/-- Claim C1, counterexample: `warn` applied to the plain string input
`Hello` under the default configuration returns a record whose `level`
field is `info`, not `warn` — `normalizeLog` always produces a `level`
field and it is the later source of the merge, so the severity default
of the emitter loses. -/
theorem c1_counterexample :
    lookupField (warn defaultEnv initState [JSInput.str "Hello"]).1 "level" =
      some (Val.str "info") ∧
    some (Val.str "info") ≠ some (Val.str "warn") := by
  exact ⟨by decide, by decide⟩

/-- Claim C1, amended: for every severity the emitter returns the level
that normalization assigned, because the severity default is only the
first source of the merge; on a plain string input the level is `info`
and on an error input it is `error`, whatever the severity of the
emitter used. -/
theorem c1_emitter_level_follows_normalizer (sev : String) (st : LoggerState)
    (s : String) (e : JSError) :
    lookupField (emitWith sev defaultEnv st [JSInput.str s]).1 "level" =
      some (Val.str "info") ∧
    lookupField (emitWith sev defaultEnv st [JSInput.err e]).1 "level" =
      some (Val.str "error") := by
  constructor
  · rw [emitWith_fst]
    have hl : lookupField (normalizeLog defaultEnv (emitTime st) [JSInput.str s]) "level" =
        some (Val.str "info") := by
      rw [normalizeLog_singleStr_eq]
      simp [lookupField]
    rw [lookup_mergeTwo_of_some _ _ _ _ (nodupKeys_normalizeLog _ _ _) hl]
  · rw [emitWith_fst]
    have hl : lookupField (normalizeLog defaultEnv (emitTime st) [JSInput.err e]) "level" =
        some (Val.str "error") := by
      rw [normalizeLog_singleErr_eq]
      simp [lookupField]
    rw [lookup_mergeTwo_of_some _ _ _ _ (nodupKeys_normalizeLog _ _ _) hl]

/-- Claim C2: for every emitter severity and every input list, the level
of the returned record is the level of the record produced by
`normalizeLog` on those inputs (at the clock value the emitter passes
it): the severity default is merged first, the normalized record second,
and the normalized record always carries a `level`, so the normalizer
wins. -/
theorem c2_emit_level_eq_normalizeLog_level (sev : String) (env : Env)
    (st : LoggerState) (ps : List JSInput)
    (h : "level" ∉ ignoredFields env) :
    lookupField (emitWith sev env st ps).1 "level" =
      lookupField (normalizeLog env (emitTime st) ps) "level" := by
  obtain ⟨v, hv⟩ := Option.isSome_iff_exists.mp
    (isSome_level_normalizeLog env (emitTime st) ps h)
  rw [emitWith_fst,
    lookup_mergeTwo_of_some _ _ _ _ (nodupKeys_normalizeLog _ _ _) hv, hv]

theorem c2_witness :
    ("level" ∉ ignoredFields defaultEnv) ∧
    lookupField (emitWith "warn" defaultEnv initState [JSInput.str "Hello"]).1 "level" =
      lookupField (normalizeLog defaultEnv (emitTime initState) [JSInput.str "Hello"]) "level" :=
  ⟨by decide,
   c2_emit_level_eq_normalizeLog_level "warn" defaultEnv initState
     [JSInput.str "Hello"] (by decide)⟩

/-- Claim C3: no field named in the configured ignored-field set survives
normalization, whatever the inputs supplied. -/
theorem c3_ignored_fields_absent (env : Env) (now : Nat) (ps : List JSInput)
    (f : String) (hf : f ∈ ignoredFields env) :
    lookupField (normalizeLog env now ps) f = none := by
  unfold normalizeLog
  rw [lookup_omitFields]
  simp [hf]

theorem c3_witness :
    ("password" ∈ ignoredFields defaultEnv) ∧
    lookupField (normalizeLog defaultEnv 0
      [JSInput.obj [("message", Val.str "Hello"), ("password", Val.str "1234")]])
      "password" = none :=
  ⟨by decide,
   c3_ignored_fields_absent defaultEnv 0
     [JSInput.obj [("message", Val.str "Hello"), ("password", Val.str "1234")]]
     "password" (by decide)⟩

/-- Claim C4: normalizing zero inputs yields exactly the two-field record
of level `info` and the creation timestamp (provided the configured
ignored-field set does not name those two fields, as the defaults do
not). -/
theorem c4_normalizeLog_empty (env : Env) (now : Nat)
    (h1 : "level" ∉ ignoredFields env) (h2 : "timestamp" ∉ ignoredFields env) :
    normalizeLog env now [] =
      [("level", Val.str "info"), ("timestamp", Val.time now)] := by
  simp [normalizeLog, omitFields, h1, h2]

theorem c4_witness :
    ("level" ∉ ignoredFields defaultEnv ∧ "timestamp" ∉ ignoredFields defaultEnv) ∧
    normalizeLog defaultEnv 5 [] =
      [("level", Val.str "info"), ("timestamp", Val.time 5)] :=
  ⟨⟨by decide, by decide⟩, c4_normalizeLog_empty defaultEnv 5 (by decide) (by decide)⟩

/-- Claim C5: normalizing a single error input (default configuration)
yields level `error`, the message of the error, its stack, and its
`name`/`code`/`status` fields whenever the error carries them. -/
theorem c5_normalizeLog_error (now : Nat) (e : JSError) :
    lookupField (normalizeLog defaultEnv now [JSInput.err e]) "level" =
      some (Val.str "error") ∧
    lookupField (normalizeLog defaultEnv now [JSInput.err e]) "message" =
      some (Val.str e.message) ∧
    lookupField (normalizeLog defaultEnv now [JSInput.err e]) "stack" =
      some (Val.str e.stack) ∧
    (∀ nm, e.name = some nm →
      lookupField (normalizeLog defaultEnv now [JSInput.err e]) "name" =
        some (Val.str nm)) ∧
    (∀ c, e.code = some c →
      lookupField (normalizeLog defaultEnv now [JSInput.err e]) "code" = some c) ∧
    (∀ s, e.status = some s →
      lookupField (normalizeLog defaultEnv now [JSInput.err e]) "status" = some s) := by
  rw [normalizeLog_singleErr_eq]
  obtain ⟨msg, stk, nm, cd, stt⟩ := e
  cases nm <;> cases cd <;> cases stt <;> simp [optField, lookupField]

theorem c5_witness :
    lookupField (normalizeLog defaultEnv 0
      [JSInput.err ⟨"bad", "trace", some "TypeError", some (Val.num 500), some (Val.num 500)⟩])
      "level" = some (Val.str "error") ∧
    lookupField (normalizeLog defaultEnv 0
      [JSInput.err ⟨"bad", "trace", some "TypeError", some (Val.num 500), some (Val.num 500)⟩])
      "message" = some (Val.str "bad") ∧
    lookupField (normalizeLog defaultEnv 0
      [JSInput.err ⟨"bad", "trace", some "TypeError", some (Val.num 500), some (Val.num 500)⟩])
      "stack" = some (Val.str "trace") ∧
    lookupField (normalizeLog defaultEnv 0
      [JSInput.err ⟨"bad", "trace", some "TypeError", some (Val.num 500), some (Val.num 500)⟩])
      "name" = some (Val.str "TypeError") ∧
    lookupField (normalizeLog defaultEnv 0
      [JSInput.err ⟨"bad", "trace", some "TypeError", some (Val.num 500), some (Val.num 500)⟩])
      "code" = some (Val.num 500) ∧
    lookupField (normalizeLog defaultEnv 0
      [JSInput.err ⟨"bad", "trace", some "TypeError", some (Val.num 500), some (Val.num 500)⟩])
      "status" = some (Val.num 500) := by
  obtain ⟨a, b, c, d, f, g⟩ := c5_normalizeLog_error 0
    ⟨"bad", "trace", some "TypeError", some (Val.num 500), some (Val.num 500)⟩
  exact ⟨a, b, c, d "TypeError" rfl, f (Val.num 500) rfl, g (Val.num 500) rfl⟩

/-- Claim C6: acquiring the logger twice without an intervening dispose
returns the very same handle (same identity and id) and the second call
leaves the stored state untouched. -/
theorem c6_createLogger_idempotent (c1 c2 : Option Handle) (st : LoggerState) :
    createLogger c2 (createLogger c1 st).2 =
      ((createLogger c1 st).1, (createLogger c1 st).2) ∧
    (createLogger c2 (createLogger c1 st).2).1.id = (createLogger c1 st).1.id := by
  cases h : st.handle <;> simp [createLogger, h]

/-- Claim C7: disposing clears the handle to the empty value and returns
it, and the next acquire assigns an identifier different from every
identifier issued before the reset (the clock only moves forward, so
every previously issued id is below the current clock). -/
theorem c7_fresh_id_after_dispose (st : LoggerState) (c : Option Handle)
    (hfresh : ∀ i ∈ st.issuedIds, i < st.time) :
    (disposeLogger st).1 = none ∧
    (createLogger c (disposeLogger st).2).1.id ∉ st.issuedIds := by
  refine ⟨rfl, ?_⟩
  have hid : (createLogger c (disposeLogger st).2).1.id = st.time := rfl
  rw [hid]
  intro hmem
  exact absurd (hfresh _ hmem) (lt_irrefl _)

theorem c7_witness :
    (∀ i ∈ (createLogger none initState).2.issuedIds,
        i < (createLogger none initState).2.time) ∧
    ((disposeLogger (createLogger none initState).2).1 = none ∧
      (createLogger none (disposeLogger (createLogger none initState).2).2).1.id ∉
        (createLogger none initState).2.issuedIds) :=
  ⟨by decide, c7_fresh_id_after_dispose (createLogger none initState).2 none (by decide)⟩

/-- Claim C8: with the enabled flag off, an emitter forwards nothing to
the backend, yet still returns the merged normalized record, and that
returned record is the same one it returns with the flag on — gating
touches only the backend, never the return value. -/
theorem c8_disabled_no_write_same_result (sev : String) (env : Env)
    (st : LoggerState) (ps : List JSInput) :
    (emitWith sev { env with logEnabled := some false } st ps).2.written = st.written ∧
    (emitWith sev { env with logEnabled := some false } st ps).1 =
      mergeTwo [("level", Val.str sev)]
        (normalizeLog { env with logEnabled := some false } (emitTime st) ps) ∧
    (emitWith sev { env with logEnabled := some false } st ps).1 =
      (emitWith sev { env with logEnabled := some true } st ps).1 := by
  refine ⟨emitWith_written_of_disabled _ _ _ _ rfl, emitWith_fst _ _ _ _, ?_⟩
  rw [emitWith_fst, emitWith_fst]
  rfl

/-- Claim C9, counterexample: the stream adapter trims LEADING whitespace
as well, so on a line with leading whitespace the forwarded `message`
differs from the trailing-trimmed text the spec describes. -/
theorem c9_counterexample :
    lookupField (streamWrite defaultEnv initState " hi\n").1 "message" =
      some (Val.str "hi") ∧
    specTrimTrailing " hi\n" = " hi" ∧
    Val.str "hi" ≠ Val.str " hi" := by
  exact ⟨by decide, by decide, by decide⟩

/-- Claim C9, amended: the stream adapter trims leading AND trailing
whitespace/newline from the line, forwards the trimmed text through the
info emitter as the `message` field, and returns that emitter's record:
level `info`, message equal to the trimmed text, and a timestamp. -/
theorem c9_stream_write (st : LoggerState) (m : String) :
    lookupField (streamWrite defaultEnv st m).1 "level" = some (Val.str "info") ∧
    lookupField (streamWrite defaultEnv st m).1 "message" = some (Val.str (jsTrim m)) ∧
    (lookupField (streamWrite defaultEnv st m).1 "timestamp").isSome = true := by
  have h1 : (streamWrite defaultEnv st m).1 =
      mergeTwo [("level", Val.str "info")]
        (normalizeLog defaultEnv (emitTime st)
          [JSInput.obj [("message", Val.str (jsTrim m))]]) := emitWith_fst _ _ _ _
  rw [h1, normalizeLog_msgObj_eq]
  simp [mergeTwo, setField, lookupField]

/-- Claim C10: an input that is neither a string, nor a plain object, nor
an error contributes nothing: normalization of any list containing it
equals normalization of the list without it. -/
theorem c10_unrecognized_input_ignored (env : Env) (now : Nat)
    (ps1 ps2 : List JSInput) (p : JSInput)
    (h1 : isStringParam p = false) (h2 : isPlainObjectParam p = false)
    (h3 : isErrorParam p = false) :
    normalizeLog env now (ps1 ++ p :: ps2) = normalizeLog env now (ps1 ++ ps2) := by
  simp only [normalizeLog]
  rw [List.foldl_append, List.foldl_append, List.foldl_cons]
  congr 1
  cases p with
  | str s => simp [isStringParam] at h1
  | obj o => simp [isPlainObjectParam] at h2
  | err e => simp [isErrorParam] at h3
  | num n => rfl
  | nullV => rfl
  | arr xs => rfl

theorem c10_witness :
    (isStringParam JSInput.nullV = false ∧
      isPlainObjectParam JSInput.nullV = false ∧
      isErrorParam JSInput.nullV = false) ∧
    normalizeLog defaultEnv 3 ([JSInput.str "Hello"] ++ JSInput.nullV :: []) =
      normalizeLog defaultEnv 3 ([JSInput.str "Hello"] ++ []) :=
  ⟨⟨rfl, rfl, rfl⟩,
   c10_unrecognized_input_ignored defaultEnv 3 [JSInput.str "Hello"] []
     JSInput.nullV rfl rfl rfl⟩

end Logger
